import Mathlib

/-!
Verification of the watchpot periodic-capture-and-notify scripts.

The development shallowly embeds the decision and state logic of
`scripts/capture_photo.py` and `scripts/send_email.py`:

* pure string manipulation (Python `str.split`, `str.strip`, `str.replace`,
  `int(...)` on unsigned decimal forms) is modelled over `List Char`;
* the filesystem is modelled as explicit lists of file / directory names;
* external collaborators (camera binary, `convert`, SMTP transport,
  telemetry) are modelled as explicit outcome parameters;
* retry loops are modelled as structural recursion on the remaining
  attempt budget, recording invocation counts and backoff sleeps.

Machine floats appear in the source only in the GIF size check
(`st_size / (1024*1024) <= max_size_mb`); the check is modelled with exact
rational arithmetic.
-/

namespace Watchpot

/-! ## Character-list models of the Python string primitives -/

/-- Model of Python `s.split(sep)` for a one-character separator: splitting
the empty string yields `[[]]`, and separators delimit (possibly empty)
fields. -/
def splitOnChar (sep : Char) : List Char → List (List Char)
  | [] => [[]]
  | x :: xs =>
    let rest := splitOnChar sep xs
    if x = sep then [] :: rest
    else
      match rest with
      | [] => [[x]]
      | r :: rs => (x :: r) :: rs

/-- Drop leading whitespace characters. -/
def dropLeadingWs : List Char → List Char
  | [] => []
  | c :: rest => if c.isWhitespace then dropLeadingWs rest else c :: rest

/-- Model of Python `s.strip()`: remove whitespace from both ends. -/
def stripChars (l : List Char) : List Char :=
  (dropLeadingWs (dropLeadingWs l).reverse).reverse

/-- Model of Python `s.replace(c, '')` for a one-character pattern. -/
def removeChar (c : Char) (l : List Char) : List Char :=
  l.filter (fun x => x ≠ c)

/-- Numeric value of a digit string (no validation). -/
def natOfDigits (l : List Char) : Nat :=
  l.foldl (fun acc c => acc * 10 + (c.toNat - 48)) 0

/-- Model of Python `int(s)` restricted to unsigned decimal forms:
whitespace is stripped, then the string must be nonempty and all digits;
anything else raises `ValueError`, modelled as `none`. -/
def pyIntNat (l : List Char) : Option Nat :=
  let t := stripChars l
  if t ≠ [] ∧ t.all Char.isDigit = true then some (natOfDigits t) else none

/-- Model of Python `pattern in s` made removable: delete every
(left-to-right, non-overlapping) occurrence of `pat` from `l`, as
`s.replace(pat, '')` does.  Fuel is the length of `l`, which bounds the
number of recursion steps. -/
def removeSubAux (pat : List Char) : Nat → List Char → List Char
  | _, [] => []
  | 0, l => l
  | fuel + 1, c :: rest =>
    if pat ≠ [] ∧ pat.isPrefixOf (c :: rest) = true then
      removeSubAux pat fuel ((c :: rest).drop pat.length)
    else
      c :: removeSubAux pat fuel rest

/-- Model of Python `s.replace(pat, '')` for a multi-character pattern. -/
def removeSub (pat l : List Char) : List Char :=
  removeSubAux pat l.length l

/-- Code-point lexicographic order on character lists, the order Python
uses to sort strings. -/
def charListLe : List Char → List Char → Bool
  | [], _ => true
  | _ :: _, [] => false
  | a :: as, b :: bs =>
    if a.toNat < b.toNat then true
    else if b.toNat < a.toNat then false
    else charListLe as bs

/-- Code-point lexicographic order on strings. -/
def strLe (a b : String) : Prop := charListLe a.data b.data = true

instance : DecidableRel strLe :=
  fun a b => inferInstanceAs (Decidable (charListLe a.data b.data = true))

/-! ## TimeWindowScheduler: `should_capture_now` (capture_photo.py 170-193) -/

/-- Model of `hour, minute = map(int, scheduled_time.split(':'))` followed
by `current_dt.replace(hour=hour, minute=minute, ...)`: the entry must
split on `:` into exactly two `int(...)`-parseable fields, and `replace`
raises `ValueError` unless `hour ≤ 23` and `minute ≤ 59`.  Any
`ValueError` is modelled as `none`. -/
def parseHM (l : List Char) : Option (Nat × Nat) :=
  match splitOnChar ':' l with
  | [hs, ms] =>
    match pyIntNat hs, pyIntNat ms with
    | some h, some m => if h ≤ 23 ∧ m ≤ 59 then some (h, m) else none
    | _, _ => none
  | _ => none

/-- Model of the per-entry body of the loop in `should_capture_now`: strip
the entry, parse it as `HH:MM`, and if the parsed point is within 300
seconds of `nowSec` (the current time of day, in seconds since midnight)
return the stripped entry with the colons removed — the slot label.
Malformed entries yield `none`, which the loop skips via `continue`. -/
def timeHit (nowSec : Nat) (entry : List Char) : Option (List Char) :=
  match parseHM (stripChars entry) with
  | some (h, m) =>
    if Int.natAbs ((nowSec : Int) - ((h : Int) * 3600 + (m : Int) * 60)) ≤ 300 then
      some (removeChar ':' (stripChars entry))
    else none
  | none => none

/-- Model of `should_capture_now` (capture_photo.py 170-193): split the
`photo_times` configuration string on commas and return the label of the
first entry that parses and lies within the 5-minute window, `none` if no
entry matches. -/
def should_capture_now (photo_times : String) (nowSec : Nat) : Option String :=
  ((splitOnChar ',' photo_times.data).findSome? (timeHit nowSec)).map String.mk

/-! ## CaptureOrchestrator: `capture_single_photo` (capture_photo.py 67-128) -/

/-- Outcome of one invocation of the camera collaborator `rpicam-still`,
as observed by `capture_single_photo`. -/
inductive DeviceOutcome where
  /-- exit status 0, output file present and larger than 1024 bytes. -/
  | okGood
  /-- exit status 0 but output file missing, empty or ≤ 1024 bytes. -/
  | okBad
  /-- non-zero exit status. -/
  | exitFail
  /-- `subprocess.TimeoutExpired` raised. -/
  | timedOut
deriving DecidableEq, Repr

/-- Result of a run of `capture_single_photo`: whether a verified photo
was produced, how many times the camera collaborator was invoked, and the
log of `time.sleep` durations executed. -/
structure CaptureRun where
  success : Bool
  invocations : Nat
  sleepLog : List Nat
deriving DecidableEq, Repr

/-- Model of the retry loop of `capture_single_photo` (capture_photo.py
72-125).  `dev i` is the outcome of the `i`-th camera invocation,
`remaining` the attempts left out of `max_retries`.  On `okGood` the
function returns immediately.  On `okBad` or `exitFail` the code reaches
both the sleep inside the `try` block (line 117) and the sleep after the
`except` clauses (line 125), so two sleeps of `retry_delay` are executed
when this was not the last attempt.  On `timedOut` the exception skips the
inner sleep and only the sleep at line 125 runs. -/
def captureGo (dev : Nat → DeviceOutcome) (retry_delay : Nat) :
    Nat → Nat → List Nat → CaptureRun
  | 0, inv, log => ⟨false, inv, log⟩
  | remaining + 1, inv, log =>
    match dev inv with
    | .okGood => ⟨true, inv + 1, log⟩
    | .okBad =>
      captureGo dev retry_delay remaining (inv + 1)
        (log ++ (if remaining = 0 then [] else [retry_delay, retry_delay]))
    | .exitFail =>
      captureGo dev retry_delay remaining (inv + 1)
        (log ++ (if remaining = 0 then [] else [retry_delay, retry_delay]))
    | .timedOut =>
      captureGo dev retry_delay remaining (inv + 1)
        (log ++ (if remaining = 0 then [] else [retry_delay]))

/-- Model of `capture_single_photo` (capture_photo.py 67-128). -/
def capture_single_photo (dev : Nat → DeviceOutcome) (max_retries retry_delay : Nat) :
    CaptureRun :=
  captureGo dev retry_delay max_retries 0 []

/-! ## RetentionManager: `cleanup_old_photos` (capture_photo.py 130-155) -/

/-- Gregorian calendar date. -/
structure YMD where
  year : Nat
  month : Nat
  day : Nat
deriving DecidableEq, Repr

/-- Gregorian leap-year test. -/
def isLeapYear (y : Nat) : Bool :=
  decide ((y % 4 = 0 ∧ y % 100 ≠ 0) ∨ y % 400 = 0)

/-- Number of days in a month. -/
def daysInMonth (y m : Nat) : Nat :=
  if m = 2 then (if isLeapYear y then 29 else 28)
  else if m = 4 ∨ m = 6 ∨ m = 9 ∨ m = 11 then 30
  else 31

/-- Validity of a date, with the year range `datetime` accepts. -/
def validYMD (dt : YMD) : Bool :=
  decide (1 ≤ dt.year ∧ dt.year ≤ 9999 ∧ 1 ≤ dt.month ∧ dt.month ≤ 12 ∧
    1 ≤ dt.day ∧ dt.day ≤ daysInMonth dt.year dt.month)

/-- Day number of a valid date (days in an era-based linearisation of the
proleptic Gregorian calendar); order-isomorphic to `datetime.date`
ordering, and shifting it by `n` is subtraction of `timedelta(days=n)`. -/
def rataDie (dt : YMD) : Nat :=
  let y := if dt.month ≤ 2 then dt.year - 1 else dt.year
  let era := y / 400
  let yoe := y % 400
  let mp := (dt.month + 9) % 12
  let doy := (153 * mp + 2) / 5 + dt.day - 1
  let doe := yoe * 365 + yoe / 4 - yoe / 100 + doy
  era * 146097 + doe

/-- Model of `datetime.datetime.strptime(s, '%Y%m%d').date()` on the
canonical fixed-width form the repository writes: eight digits split
4‑2‑2, accepted only when they form a valid calendar date; every other
string raises `ValueError`, modelled as `none`. -/
def parse_date_yyyymmdd (l : List Char) : Option YMD :=
  if l.length = 8 ∧ l.all Char.isDigit = true then
    let dt : YMD := ⟨natOfDigits (l.take 4), natOfDigits ((l.drop 4).take 2),
      natOfDigits (l.drop 6)⟩
    if validYMD dt then some dt else none
  else none

/-- Model of `cleanup_old_photos` (capture_photo.py 130-155): among the
entries matching `glob("daily_*")`, remove exactly those whose name with
`daily_` deleted parses as a date strictly before
`today - timedelta(days=retention_days)`; a `ValueError` from parsing hits
`continue` and the entry is kept.  The result is the list of removed
directory names. -/
def cleanup_old_photos (dirNames : List String) (today : YMD) (retention_days : Nat) :
    List String :=
  (dirNames.filter (fun n => ("daily_".data).isPrefixOf n.data)).filter (fun n =>
    match parse_date_yyyymmdd (removeSub ("daily_".data) n.data) with
    | some dt => decide (rataDie dt + retention_days < rataDie today)
    | none => false)

/-! ## Daily bucket contents: `get_today_photos` (send_email.py 123-133) -/

/-- Suffix test on character lists (true when `suf` is a suffix of `l`). -/
def hasSuffixCL (l suf : List Char) : Bool :=
  suf.reverse.isPrefixOf l.reverse

/-- Model of matching `glob("*.jpg")` for one directory entry: the name
ends in `.jpg`, and `glob` skips hidden entries, those starting with a
dot (in particular the `.sent_photos` state file). -/
def globJpg (n : String) : Bool :=
  hasSuffixCL n.data (".jpg".data) &&
    (match n.data with
     | [] => false
     | c :: _ => decide (c ≠ '.'))

/-- Model of `get_today_photos` (send_email.py 123-133): the `*.jpg`
entries of today's daily directory, sorted in Python's ascending
code-point string order.  `dirFiles` is the listing of the daily
directory. -/
def get_today_photos (dirFiles : List String) : List String :=
  List.insertionSort strLe (dirFiles.filter globJpg)

/-! ## SentStateTracker (send_email.py 135-169) -/

/-- Intermediate file contents produced as `save_sent_photos`
(send_email.py 152-158) writes entry lines one at a time after
`open(sent_file, 'w')` has truncated the file; `acc` is the content
already written. -/
def writeLinesStates (acc : List String) : List String → List (List String)
  | [] => []
  | p :: rest => (acc ++ [p]) :: writeLinesStates (acc ++ [p]) rest

/-- Every file content observable on disk during a run of
`save_sent_photos sent` (send_email.py 152-158), in order: the code opens
the sent-state file with mode `'w'`, which immediately truncates it to
empty, then appends one line per entry.  There is no temporary file and
no rename. -/
def save_sent_photos_states (sent : List String) : List (List String) :=
  [] :: writeLinesStates [] sent

/-- Model of `get_photos_to_send` (send_email.py 160-169): all of today's
photos, or — when incremental — only those whose filename is not in the
persisted sent list.  Photos are identified by filename (the code
compares `os.path.basename(p)` against the lines of `.sent_photos`; all
paths share today's daily directory). -/
def get_photos_to_send (dirFiles sent : List String) (incremental : Bool) :
    List String :=
  let all_photos := get_today_photos dirFiles
  if incremental then all_photos.filter (fun p => !(decide (p ∈ sent))) else all_photos

/-! ## AttachmentPlanner (send_email.py 171-243, 384-425) -/

/-- Model of `select_single_photo` (send_email.py 171-186).  `rand`
models the index drawn by `random.choice`, which always returns an
element of a non-empty sequence. -/
def select_single_photo (photo_paths : List String) (selection_method : String)
    (rand : Nat) : Option String :=
  if photo_paths = [] then none
  else if selection_method = "first" then photo_paths.head?
  else if selection_method = "last" then photo_paths.getLast?
  else if selection_method = "middle" then photo_paths[photo_paths.length / 2]?
  else if selection_method = "random" then photo_paths[rand % photo_paths.length]?
  else photo_paths.getLast?

/-- Observable behaviour of the external collaborators during one
dispatch attempt. -/
structure ExtWorld where
  /-- `convert` exits with status 0. -/
  convertOk : Bool
  /-- the GIF output file exists afterwards. -/
  gifWritten : Bool
  /-- byte size of the GIF output file. -/
  gifSizeBytes : Nat
  /-- the SMTP session (connect, optional STARTTLS, login, send) succeeds. -/
  smtpOk : Bool
  /-- index drawn by `random.choice` when the random selection is used. -/
  randPick : Nat
  /-- pre-formatted telemetry block returned by `get_system_stats` /
  `create_system_info_text`; the core embeds it verbatim. -/
  sysInfo : String

/-- Name of the consolidated artifact written into the daily bucket,
`watchpot_timelapse_YYYYMMDD.gif` (send_email.py 393). -/
def gifFileName (ymd : String) : String :=
  "watchpot_timelapse_" ++ ymd ++ ".gif"

/-- Model of `create_gif_from_photos` (send_email.py 188-243): `none` on
empty input, on non-zero `convert` exit status, when the output file is
missing, or when its size in mebibytes exceeds `max_size_mb`; otherwise
the artifact path.  The byte-to-MB conversion and comparison are exact
rational arithmetic in place of the source's floats. -/
def create_gif_from_photos (photo_paths : List String) (gifName : String)
    (w : ExtWorld) (max_size_mb : ℚ) : Option String :=
  if photo_paths = [] then none
  else if w.convertOk = false then none
  else if w.gifWritten then
    (if (w.gifSizeBytes : ℚ) / (1024 * 1024) ≤ max_size_mb then some gifName else none)
  else none

/-- The attachment plan a dispatch attempt settles on: one consolidated
artifact (with an optional representative single photo), or every record
individually. -/
inductive AttachmentPlan where
  | consolidated (gif : String) (representative : Option String)
  | individual (items : List String)
deriving DecidableEq, Repr

/-! ## DispatchOrchestrator: `send_daily_email` (send_email.py 310-469) -/

/-- Configuration fields `send_daily_email` reads.  The three optional
fields model `config['...']` lookups that raise `KeyError` when the key is
absent from the configuration file. -/
structure SendConfig where
  sender_email : Option String
  sender_password : Option String
  recipients : Option String
  max_retries : Nat
  retry_delay : Nat
  email_incremental_photos : Bool
  email_create_gif : Bool
  email_gif_max_size_mb : ℚ
  email_attach_single_photo : Bool
  email_single_photo_selection : String

/-- Model of the attachment-handling block (send_email.py 384-425): when
there are photos and GIF mode is on, try the consolidated artifact and
attach it (possible only if the file exists and is non-empty), adding the
representative single photo when configured; on GIF failure or an
oversized artifact fall back to attaching every photo individually, in
the given order. -/
def buildPlan (cfg : SendConfig) (photo_paths : List String) (gifName : String)
    (w : ExtWorld) : AttachmentPlan :=
  if photo_paths ≠ [] ∧ cfg.email_create_gif = true then
    match create_gif_from_photos photo_paths gifName w cfg.email_gif_max_size_mb with
    | some g =>
      if w.gifSizeBytes > 0 then
        AttachmentPlan.consolidated g
          (if cfg.email_attach_single_photo then
            select_single_photo photo_paths cfg.email_single_photo_selection w.randPick
          else none)
      else AttachmentPlan.individual photo_paths
    | none => AttachmentPlan.individual photo_paths
  else AttachmentPlan.individual photo_paths

/-- Body used when no photos were captured today (send_email.py 374). -/
def noPhotosBody : String :=
  "Hello!\n\nNo photos were captured today. Please check the system.\n\nSystem information below."

/-- Model of the capture-time extraction (send_email.py 348-359): strip
`.jpg`, split on underscores, take the third field, and format it as
`HH:MM` when it has four characters. -/
def extractCaptureTime (filename : String) : Option String :=
  let parts := splitOnChar '_' (removeSub (".jpg".data) filename.data)
  match parts[2]? with
  | some t =>
    if t.length = 4 then some (String.mk (t.take 2 ++ ':' :: t.drop 2)) else none
  | none => none

/-- Body used when photos exist, rendered from the default template
`Hello! WatchPot captured ... photos today at ... . System info below.`
(send_email.py 346-372). -/
def photosBody (photo_paths : List String) : String :=
  let times := photo_paths.filterMap extractCaptureTime
  "Hello! WatchPot captured " ++ toString photo_paths.length ++ " photos today at " ++
    (if times = [] then "various times" else String.intercalate ", " times) ++
    ". System info below."

/-- The full message body: the photo summary or the no-captures
notification, followed by the telemetry block (send_email.py 346-378). -/
def emailBody (photo_paths : List String) (sysInfo : String) : String :=
  (if photo_paths = [] then noPhotosBody else photosBody photo_paths) ++ sysInfo

/-- The message handed to `server.send_message`. -/
structure SentMessage where
  body : String
  plan : AttachmentPlan
deriving DecidableEq, Repr

/-- Result of one iteration of the retry loop in `send_daily_email`:
whether the attempt succeeded, the message delivered by the transport (if
it was), and the sent-state list persisted afterwards. -/
structure AttemptOutcome where
  success : Bool
  delivered : Option SentMessage
  newSent : List String
deriving DecidableEq, Repr

/-- Model of one attempt of `send_daily_email` (send_email.py 315-461):
select the photo set (incremental delta or all of today's photos), then
`msg['From'] = config['sender_email']` and `msg['To'] =
config['recipients']` raise `KeyError` when those keys are missing, as
does `config['sender_password']` at login; any such exception, or an SMTP
failure, makes the attempt fail.  On transport success with incremental
mode and a non-empty photo set, the dispatched filenames are appended to
the persisted sent list (lines 453-458). -/
def sendAttempt (cfg : SendConfig) (dirFiles sent : List String) (gifName : String)
    (w : ExtWorld) : AttemptOutcome :=
  let photo_paths := get_photos_to_send dirFiles sent cfg.email_incremental_photos
  match cfg.sender_email, cfg.recipients with
  | some _, some _ =>
    let body := emailBody photo_paths w.sysInfo
    let plan := buildPlan cfg photo_paths gifName w
    match cfg.sender_password with
    | some _ =>
      if w.smtpOk then
        { success := true, delivered := some ⟨body, plan⟩,
          newSent := if cfg.email_incremental_photos = true ∧ photo_paths ≠ [] then
            sent ++ photo_paths else sent }
      else { success := false, delivered := none, newSent := sent }
    | none => { success := false, delivered := none, newSent := sent }
  | _, _ => { success := false, delivered := none, newSent := sent }

/-- Result of a full run of `send_daily_email`: overall success, number
of attempts made, number of backoff sleeps executed, and the final
persisted sent list. -/
structure RunResult where
  success : Bool
  attempts : Nat
  sleeps : Nat
  finalSent : List String
deriving DecidableEq, Repr

/-- Model of the retry loop of `send_daily_email` (send_email.py
315-469): run attempts until one succeeds or the budget is exhausted,
sleeping `retry_delay` after each failed attempt except the last
(line 464-466).  `ws i` is the collaborator behaviour during attempt
`i`. -/
def sendRunAux (cfg : SendConfig) (dirFiles : List String) (gifName : String)
    (ws : Nat → ExtWorld) : Nat → List String → Nat → Nat → RunResult
  | 0, sent, att, slp => ⟨false, att, slp, sent⟩
  | remaining + 1, sent, att, slp =>
    let out := sendAttempt cfg dirFiles sent gifName (ws att)
    if out.success then ⟨true, att + 1, slp, out.newSent⟩
    else sendRunAux cfg dirFiles gifName ws remaining out.newSent (att + 1)
      (slp + (if remaining = 0 then 0 else 1))

/-- Model of `send_daily_email` (send_email.py 310-469). -/
def send_daily_email (cfg : SendConfig) (dirFiles sent : List String)
    (gifName : String) (ws : Nat → ExtWorld) : RunResult :=
  sendRunAux cfg dirFiles gifName ws cfg.max_retries sent 0 0

/-- Model of the exit status of `main` (send_email.py 496-528):
`sys.exit(0)` when `send_daily_email` reported success, `sys.exit(1)`
otherwise. -/
def email_exit_code (r : RunResult) : Nat :=
  if r.success then 0 else 1

/-! ## Order properties of the string sort relation -/

theorem charListLe_total : ∀ x y, charListLe x y = true ∨ charListLe y x = true := by
  intro x
  induction x with
  | nil => intro y; left; rfl
  | cons a as ih =>
    intro y
    cases y with
    | nil => right; rfl
    | cons b bs =>
      simp only [charListLe]
      rcases Nat.lt_trichotomy a.toNat b.toNat with h | h | h
      · left; simp [h]
      · have h1 : ¬ a.toNat < b.toNat := by omega
        have h2 : ¬ b.toNat < a.toNat := by omega
        rcases ih bs with h3 | h3
        · left; simp [h1, h2, h3]
        · right; simp [h1, h2, h3]
      · right; simp [h, Nat.lt_asymm h]

theorem charListLe_trans :
    ∀ x y z, charListLe x y = true → charListLe y z = true → charListLe x z = true := by
  intro x
  induction x with
  | nil => intro y z _ _; rfl
  | cons a as ih =>
    intro y z hxy hyz
    cases y with
    | nil => simp [charListLe] at hxy
    | cons b bs =>
      cases z with
      | nil => simp [charListLe] at hyz
      | cons c cs =>
        simp only [charListLe] at hxy hyz ⊢
        by_cases hab : a.toNat < b.toNat
        · by_cases hbc : b.toNat < c.toNat
          · simp [show a.toNat < c.toNat by omega]
          · simp [hab] at hxy
            by_cases hcb : c.toNat < b.toNat
            · simp [hbc, hcb] at hyz
            · simp [show a.toNat < c.toNat by omega]
        · by_cases hba : b.toNat < a.toNat
          · simp [hab, hba] at hxy
          · have hab2 : a.toNat = b.toNat := by omega
            simp [hab, hba] at hxy
            by_cases hbc : b.toNat < c.toNat
            · simp [show a.toNat < c.toNat by omega]
            · by_cases hcb : c.toNat < b.toNat
              · simp [hbc, hcb] at hyz
              · have hnac : ¬ a.toNat < c.toNat := by omega
                have hnca : ¬ c.toNat < a.toNat := by omega
                simp_all [ih bs cs]

instance : IsTotal String strLe where
  total := fun a b => charListLe_total a.data b.data

instance : IsTrans String strLe where
  trans := fun a b c => charListLe_trans a.data b.data c.data

/-! ## C2: capture retry loop -/

theorem captureGo_step_okGood (dev : Nat → DeviceOutcome) (rd n inv : Nat)
    (log : List Nat) (h : dev inv = DeviceOutcome.okGood) :
    captureGo dev rd (n + 1) inv log = ⟨true, inv + 1, log⟩ := by
  rw [captureGo, h]

theorem captureGo_step_exitFail (dev : Nat → DeviceOutcome) (rd n inv : Nat)
    (log : List Nat) (h : dev inv = DeviceOutcome.exitFail) :
    captureGo dev rd (n + 1) inv log =
      captureGo dev rd n (inv + 1) (log ++ (if n = 0 then [] else [rd, rd])) := by
  rw [captureGo, h]

theorem captureGo_fail_then_ok (dev : Nat → DeviceOutcome) (rd : Nat) :
    ∀ (k inv : Nat) (log : List Nat),
      (∀ i, i < k → dev (inv + i) = DeviceOutcome.exitFail) →
      dev (inv + k) = DeviceOutcome.okGood →
      captureGo dev rd (k + 1) inv log =
        ⟨true, inv + k + 1, log ++ List.replicate (2 * k) rd⟩ := by
  intro k
  induction k with
  | zero =>
    intro inv log _ hok
    simp only [Nat.add_zero] at hok
    rw [captureGo_step_okGood dev rd 0 inv log hok]
    simp
  | succ k ih =>
    intro inv log hfail hok
    have h0 : dev inv = DeviceOutcome.exitFail := by
      have := hfail 0 (Nat.succ_pos k)
      simpa using this
    have hrec := ih (inv + 1)
      (log ++ [rd, rd])
      (by intro i hi
          have := hfail (i + 1) (by omega)
          simpa [Nat.add_assoc, Nat.add_comm 1 i] using this)
      (by have : inv + 1 + k = inv + (k + 1) := by omega
          rw [this]; exact hok)
    rw [captureGo_step_exitFail dev rd (k + 1) inv log h0,
      if_neg (Nat.succ_ne_zero k), hrec]
    have harith : inv + 1 + k + 1 = inv + (k + 1) + 1 := by omega
    have hrep : (log ++ [rd, rd]) ++ List.replicate (2 * k) rd =
        log ++ List.replicate (2 * (k + 1)) rd := by
      have h2 : 2 * (k + 1) = (2 * k + 1) + 1 := by omega
      rw [h2, List.replicate_succ, List.replicate_succ, List.append_assoc]
      rfl
    rw [harith, hrep]

/-- C2: with a camera collaborator that fails (non-zero exit) `k` times and
then succeeds, and `max_retries = k + 1`, `capture_single_photo` returns
success and invokes the collaborator exactly `k + 1` times — but it
executes 2·k backoff sleeps of `retry_delay`, not k: for each failed
non-exception attempt, the loop body sleeps both inside the `try` block
(capture_photo.py line 117) and again after the `except` clauses
(line 125), waiting twice `retry_delay` while logging a single retry
delay.  This refutes the claimed count of exactly `k` sleeps. -/
theorem capture_fails_then_succeeds (k rd : Nat) (dev : Nat → DeviceOutcome)
    (hfail : ∀ i, i < k → dev i = DeviceOutcome.exitFail)
    (hok : dev k = DeviceOutcome.okGood) :
    capture_single_photo dev (k + 1) rd =
      ⟨true, k + 1, List.replicate (2 * k) rd⟩ := by
  have h := captureGo_fail_then_ok dev rd k 0 []
    (by intro i hi; simpa using hfail i hi) (by simpa using hok)
  simpa [capture_single_photo] using h

/-- C2 witness: one non-zero-exit failure then success, `max_retries = 2`,
`retry_delay = 30` — success after 2 invocations, with two sleeps of 30
seconds (where the claim expects one). -/
theorem capture_fails_then_succeeds_witness :
    capture_single_photo
      (fun i => if i = 0 then DeviceOutcome.exitFail else DeviceOutcome.okGood) 2 30 =
      ⟨true, 2, [30, 30]⟩ := by
  have h := capture_fails_then_succeeds 1 30
    (fun i => if i = 0 then DeviceOutcome.exitFail else DeviceOutcome.okGood)
    (by intro i hi
        have : i = 0 := by omega
        subst this; rfl)
    (by rfl)
  simpa using h

/-! ## C3: missing transport credentials -/

theorem sendAttempt_missing_key (cfg : SendConfig) (dirFiles sent : List String)
    (gifName : String) (w : ExtWorld)
    (h : cfg.sender_email = none ∨ cfg.sender_password = none ∨ cfg.recipients = none) :
    sendAttempt cfg dirFiles sent gifName w = ⟨false, none, sent⟩ := by
  unfold sendAttempt
  rcases he : cfg.sender_email with _ | se
  · rfl
  · rcases hr : cfg.recipients with _ | sr
    · rfl
    · rcases hp : cfg.sender_password with _ | sp
      · rfl
      · simp [he, hr, hp] at h

theorem sendRunAux_missing_key (cfg : SendConfig) (dirFiles : List String)
    (gifName : String) (ws : Nat → ExtWorld)
    (h : cfg.sender_email = none ∨ cfg.sender_password = none ∨ cfg.recipients = none) :
    ∀ (n : Nat) (sent : List String) (att slp : Nat),
      sendRunAux cfg dirFiles gifName ws n sent att slp =
        ⟨false, att + n, slp + (n - 1), sent⟩ := by
  intro n
  induction n with
  | zero => intro sent att slp; simp [sendRunAux]
  | succ n ih =>
    intro sent att slp
    simp only [sendRunAux, sendAttempt_missing_key cfg dirFiles sent gifName (ws att) h]
    rw [ih]
    rcases n with _ | n
    · simp
    · have h1 : att + 1 + (n + 1) = att + (n + 1 + 1) := by omega
      have h2 : slp + 1 + (n + 1 - 1) = slp + (n + 1 + 1 - 1) := by omega
      simp only [if_neg (Nat.succ_ne_zero n)]
      rw [h1, h2]
      simp

/-- C3 (amended): when a required transport key (`sender_email`,
`sender_password` or `recipients`) is missing from the configuration, the
`KeyError` is caught by the generic handler of the retry loop, so every
attempt fails and the dispatch retries with backoff: `max_retries`
attempts are made with `max_retries - 1` backoff sleeps, the sent state
is unchanged, `send_daily_email` returns failure, and the process exits
with status 1.  (The original claim of an immediate failure with no retry
and no backoff sleep is refuted by the counterexample.) -/
theorem missing_credentials_behavior (cfg : SendConfig) (dirFiles sent : List String)
    (gifName : String) (ws : Nat → ExtWorld)
    (h : cfg.sender_email = none ∨ cfg.sender_password = none ∨ cfg.recipients = none) :
    send_daily_email cfg dirFiles sent gifName ws =
      ⟨false, cfg.max_retries, cfg.max_retries - 1, sent⟩ ∧
    email_exit_code (send_daily_email cfg dirFiles sent gifName ws) = 1 := by
  have hrun := sendRunAux_missing_key cfg dirFiles gifName ws h cfg.max_retries sent 0 0
  constructor
  · simpa [send_daily_email] using hrun
  · simp [email_exit_code, send_daily_email, hrun]

/-- C3 counterexample: with `sender_email` absent and `max_retries = 3`,
the dispatch makes 3 attempts and executes 2 backoff sleeps before
failing, contradicting "fails immediately without performing any retry
attempt or backoff sleep". -/
theorem missing_credentials_counterexample :
    (send_daily_email ⟨none, some "pw", some "r@x", 3, 30, false, false, 20, false, "last"⟩
        [] [] "g.gif" (fun _ => ⟨true, true, 0, true, 0, ""⟩)).attempts = 3 ∧
    (send_daily_email ⟨none, some "pw", some "r@x", 3, 30, false, false, 20, false, "last"⟩
        [] [] "g.gif" (fun _ => ⟨true, true, 0, true, 0, ""⟩)).sleeps = 2 ∧
    email_exit_code
      (send_daily_email ⟨none, some "pw", some "r@x", 3, 30, false, false, 20, false, "last"⟩
        [] [] "g.gif" (fun _ => ⟨true, true, 0, true, 0, ""⟩)) = 1 := by
  refine ⟨rfl, rfl, rfl⟩

/-- C3 witness: the amended behaviour evaluated at a concrete
configuration missing `sender_email`. -/
theorem missing_credentials_behavior_witness :
    send_daily_email ⟨none, some "pw", some "r@x", 3, 30, false, false, 20, false, "last"⟩
        [] [] "g.gif" (fun _ => ⟨true, true, 0, true, 0, ""⟩) = ⟨false, 3, 2, []⟩ ∧
    email_exit_code
      (send_daily_email ⟨none, some "pw", some "r@x", 3, 30, false, false, 20, false, "last"⟩
        [] [] "g.gif" (fun _ => ⟨true, true, 0, true, 0, ""⟩)) = 1 :=
  missing_credentials_behavior _ [] [] "g.gif" _ (Or.inl rfl)

/-! ## C4: sent-state commits are not atomic -/

theorem writeLinesStates_mem (rest : List String) :
    ∀ (acc s : List String), s ∈ writeLinesStates acc rest →
      ∃ i, 1 ≤ i ∧ i ≤ rest.length ∧ s = acc ++ rest.take i := by
  induction rest with
  | nil => intro acc s h; simp [writeLinesStates] at h
  | cons p ps ih =>
    intro acc s h
    simp only [writeLinesStates, List.mem_cons] at h
    rcases h with rfl | h
    · exact ⟨1, le_refl 1, by simp, by simp⟩
    · obtain ⟨i, h1, h2, h3⟩ := ih (acc ++ [p]) s h
      refine ⟨i + 1, by omega, by simp; omega, ?_⟩
      rw [h3, List.take_succ_cons, List.append_assoc]
      rfl

theorem writeLinesStates_last (rest : List String) :
    ∀ acc, ((acc :: writeLinesStates acc rest) : List (List String)).getLast? =
      some (acc ++ rest) := by
  induction rest with
  | nil => intro acc; simp [writeLinesStates]
  | cons p ps ih =>
    intro acc
    have h := ih (acc ++ [p])
    simp only [writeLinesStates]
    rw [List.getLast?_cons_cons]
    simpa [List.append_assoc] using h

/-- C4 (amended): `save_sent_photos` commits by truncating the sent-state
file in place (`open(sent_file, 'w')`) and writing the entries one line
at a time — there is no write-to-temp-then-rename step.  Every state
observable on disk during the commit is a prefix of the new sent list,
the final state is the complete new list, and the empty file (the state
right after truncation) is always observable, so a concurrent reader can
see a half-written sent set. -/
theorem save_sent_photos_truncate_write (sent : List String) :
    (∀ s ∈ save_sent_photos_states sent, s <+: sent) ∧
    (save_sent_photos_states sent).getLast? = some sent ∧
    [] ∈ save_sent_photos_states sent := by
  refine ⟨?_, ?_, ?_⟩
  · intro s hs
    simp only [save_sent_photos_states, List.mem_cons] at hs
    rcases hs with rfl | hs
    · exact ⟨sent, rfl⟩
    · obtain ⟨i, _, _, h3⟩ := writeLinesStates_mem sent [] s hs
      rw [h3]
      exact ⟨sent.drop i, by simp [List.take_append_drop]⟩
  · have h := writeLinesStates_last sent []
    simpa [save_sent_photos_states] using h
  · simp [save_sent_photos_states]

/-- C4 counterexample: committing the new sent set `["a", "b"]` over the
old sent set `["a"]` makes the empty file observable on disk — a state
that is neither the complete old sent set nor the complete new one, so
the commit is not atomic-replace. -/
theorem save_sent_photos_not_atomic :
    [] ∈ save_sent_photos_states ["a", "b"] ∧
    ([] : List String) ≠ ["a"] ∧
    ([] : List String) ≠ ["a", "b"] := by
  refine ⟨by decide, by decide, by decide⟩

/-- C4 witness: the amended commit model evaluated on the sent list
`["a", "b"]`: the intermediate state `["a"]` is a prefix of the new list
and the final state equals the new list. -/
theorem save_sent_photos_truncate_write_witness :
    (["a"] : List String) <+: ["a", "b"] ∧
    (save_sent_photos_states ["a", "b"]).getLast? = some ["a", "b"] :=
  ⟨(save_sent_photos_truncate_write ["a", "b"]).1 ["a"] (by decide),
   (save_sent_photos_truncate_write ["a", "b"]).2.1⟩

/-! ## C5: time-window scheduler -/

theorem findSome?_isSome_iff {α β : Type} (f : α → Option β) (l : List α) :
    (l.findSome? f).isSome = true ↔ ∃ a ∈ l, (f a).isSome = true := by
  induction l with
  | nil => simp [List.findSome?]
  | cons x xs ih =>
    rcases hf : f x with _ | b
    · simp [List.findSome?_cons, hf, ih]
    · simp [List.findSome?_cons, hf]

theorem findSome?_eq_some_imp {α β : Type} (f : α → Option β) (l : List α) (b : β)
    (h : l.findSome? f = some b) : ∃ a ∈ l, f a = some b := by
  induction l with
  | nil => simp [List.findSome?] at h
  | cons x xs ih =>
    rcases hf : f x with _ | b2
    · rw [List.findSome?_cons, hf] at h
      obtain ⟨a, ha, hfa⟩ := ih h
      exact ⟨a, List.mem_cons_of_mem x ha, hfa⟩
    · rw [List.findSome?_cons, hf] at h
      exact ⟨x, List.mem_cons_self x xs, by rw [hf]; exact h⟩

theorem findSome?_skip {α β : Type} (f : α → Option β) (pre rest : List α)
    (h : ∀ a ∈ pre, f a = none) :
    ((pre ++ rest).findSome? f) = rest.findSome? f := by
  induction pre with
  | nil => rfl
  | cons x xs ih =>
    have hx : f x = none := h x (List.mem_cons_self x xs)
    rw [List.cons_append, List.findSome?_cons, hx]
    exact ih (fun a ha => h a (List.mem_cons_of_mem x ha))

theorem timeHit_isSome_iff (nowSec : Nat) (e : List Char) :
    (timeHit nowSec e).isSome = true ↔
    ∃ h m, parseHM (stripChars e) = some (h, m) ∧
      Int.natAbs ((nowSec : Int) - ((h : Int) * 3600 + (m : Int) * 60)) ≤ 300 := by
  rcases hp : parseHM (stripChars e) with _ | ⟨h, m⟩
  · simp [timeHit, hp]
  · by_cases hw : Int.natAbs ((nowSec : Int) - ((h : Int) * 3600 + (m : Int) * 60)) ≤ 300
    · simp only [timeHit, hp, if_pos hw, Option.isSome_some, true_iff]
      exact ⟨h, m, rfl, hw⟩
    · simp only [timeHit, hp, if_neg hw, Option.isSome_none]
      constructor
      · intro hc; exact absurd hc Bool.false_ne_true
      · rintro ⟨h2, m2, hp2, hw2⟩
        rw [Option.some.injEq, Prod.mk.injEq] at hp2
        obtain ⟨rfl, rfl⟩ := hp2
        exact absurd hw2 hw

theorem timeHit_eq_some_imp (nowSec : Nat) (e l : List Char)
    (hl : timeHit nowSec e = some l) :
    ∃ h m, parseHM (stripChars e) = some (h, m) ∧
      Int.natAbs ((nowSec : Int) - ((h : Int) * 3600 + (m : Int) * 60)) ≤ 300 ∧
      l = removeChar ':' (stripChars e) := by
  rcases hp : parseHM (stripChars e) with _ | ⟨h, m⟩
  · simp [timeHit, hp] at hl
  · by_cases hw : Int.natAbs ((nowSec : Int) - ((h : Int) * 3600 + (m : Int) * 60)) ≤ 300
    · simp only [timeHit, hp, if_pos hw] at hl
      exact ⟨h, m, rfl, hw, (Option.some.inj hl).symm⟩
    · simp [timeHit, hp, hw] at hl

/-- C5 (amended): `should_capture_now` reports a match iff some
comma-separated entry of `photo_times`, after stripping, parses as a
well-formed `HH:MM` point whose distance from the current time of day is
at most 300 seconds; a returned label is always the colon-free form of
such a matching entry; the entry returned is the FIRST matching one in
configuration order (not necessarily the one with the smallest
difference — the counterexample refutes the smallest-difference clause of
the original claim); malformed entries are skipped by the existence
characterisation, and the empty point set never matches. -/
theorem should_capture_now_spec (photo_times : String) (nowSec : Nat) :
    ((should_capture_now photo_times nowSec).isSome = true ↔
      ∃ e ∈ splitOnChar ',' photo_times.data, ∃ h m,
        parseHM (stripChars e) = some (h, m) ∧
        Int.natAbs ((nowSec : Int) - ((h : Int) * 3600 + (m : Int) * 60)) ≤ 300) ∧
    (∀ lbl, should_capture_now photo_times nowSec = some lbl →
      ∃ e ∈ splitOnChar ',' photo_times.data, ∃ h m,
        parseHM (stripChars e) = some (h, m) ∧
        Int.natAbs ((nowSec : Int) - ((h : Int) * 3600 + (m : Int) * 60)) ≤ 300 ∧
        lbl = String.mk (removeChar ':' (stripChars e))) ∧
    (∀ pre e post, splitOnChar ',' photo_times.data = pre ++ e :: post →
      (∀ e2 ∈ pre, timeHit nowSec e2 = none) →
      ∀ l, timeHit nowSec e = some l →
      should_capture_now photo_times nowSec = some (String.mk l)) ∧
    (∀ n2 : Nat, should_capture_now "" n2 = none) := by
  have hmap : ∀ (x : Option (List Char)), (x.map String.mk).isSome = x.isSome := by
    intro x; cases x <;> rfl
  refine ⟨?_, ?_, ?_, ?_⟩
  · rw [show should_capture_now photo_times nowSec =
      ((splitOnChar ',' photo_times.data).findSome? (timeHit nowSec)).map String.mk from rfl,
      hmap, findSome?_isSome_iff]
    simp only [timeHit_isSome_iff]
  · intro lbl hl
    rw [show should_capture_now photo_times nowSec =
      ((splitOnChar ',' photo_times.data).findSome? (timeHit nowSec)).map String.mk
      from rfl] at hl
    rcases hf : (splitOnChar ',' photo_times.data).findSome? (timeHit nowSec) with _ | l0
    · rw [hf] at hl; simp at hl
    · rw [hf] at hl
      have hl2 : String.mk l0 = lbl := Option.some.inj hl
      obtain ⟨e, he, hte⟩ := findSome?_eq_some_imp _ _ _ hf
      obtain ⟨h, m, hp, hw, hform⟩ := timeHit_eq_some_imp nowSec e l0 hte
      exact ⟨e, he, h, m, hp, hw, by rw [← hl2, hform]⟩
  · intro pre e post hsplit hpre l hl
    rw [show should_capture_now photo_times nowSec =
      ((splitOnChar ',' photo_times.data).findSome? (timeHit nowSec)).map String.mk
      from rfl, hsplit, findSome?_skip _ pre _ hpre, List.findSome?_cons, hl]
    rfl
  · intro n2; rfl

/-- C5 counterexample: at 08:00:00 with the configured points
`"08:04,08:00"`, the scheduler returns the label of `08:04` (the first
entry within the window) even though `08:00` is strictly closer to the
current instant, refuting the smallest-difference clause. -/
theorem should_capture_now_first_not_closest :
    should_capture_now "08:04,08:00" 28800 = some "0804" ∧
    Int.natAbs ((28800 : Int) - (8 * 3600 + 0 * 60)) <
      Int.natAbs ((28800 : Int) - (8 * 3600 + 4 * 60)) := by
  refine ⟨by decide, by decide⟩

/-- C5 witness: the first-match rule and the empty-set rule of the
amended claim evaluated at concrete inputs: a malformed first entry is
skipped and the label of the matching entry `08:00` is returned; an empty
configuration never matches. -/
theorem should_capture_now_spec_witness :
    should_capture_now "x,08:00" 28800 = some "0800" ∧
    should_capture_now "" 28800 = none :=
  ⟨(should_capture_now_spec "x,08:00" 28800).2.2.1 [['x']] ("08:00".data) []
      (by decide) (by decide) ("0800".data) (by decide),
   (should_capture_now_spec "x,08:00" 28800).2.2.2 28800⟩

/-! ## C6: retention pruning -/

theorem cleanup_mem_iff (dirNames : List String) (today : YMD)
    (retention_days : Nat) (n : String) :
    n ∈ cleanup_old_photos dirNames today retention_days ↔
      n ∈ dirNames ∧ ("daily_".data).isPrefixOf n.data = true ∧
      ∃ dt, parse_date_yyyymmdd (removeSub ("daily_".data) n.data) = some dt ∧
        rataDie dt + retention_days < rataDie today := by
  simp only [cleanup_old_photos, List.mem_filter]
  constructor
  · rintro ⟨⟨hmem, hpre⟩, hmatch⟩
    refine ⟨hmem, hpre, ?_⟩
    rcases hp : parse_date_yyyymmdd (removeSub ("daily_".data) n.data) with _ | dt
    · rw [hp] at hmatch
      exact absurd hmatch Bool.false_ne_true
    · rw [hp] at hmatch
      have hmatch2 : decide (rataDie dt + retention_days < rataDie today) = true := hmatch
      exact ⟨dt, rfl, of_decide_eq_true hmatch2⟩
  · rintro ⟨hmem, hpre, dt, hp, hlt⟩
    exact ⟨⟨hmem, hpre⟩, by rw [hp]; exact decide_eq_true hlt⟩

/-- C6: retention pruning removes exactly the `daily_*` buckets whose
name, with the `daily_` pattern removed, parses as a calendar date
strictly older than `today - retention_days`; a bucket whose name fails
to parse is never removed; and on the spec's concrete instance (buckets
dated D-10, D-8, D-5 with retention 7 evaluated at D = 2025-06-20)
exactly the D-10 and D-8 buckets are removed while D-5 and
`daily_notadate` remain. -/
theorem cleanup_removes_exactly_stale (dirNames : List String) (today : YMD)
    (retention_days : Nat) :
    (∀ n, n ∈ cleanup_old_photos dirNames today retention_days ↔
      n ∈ dirNames ∧ ("daily_".data).isPrefixOf n.data = true ∧
      ∃ dt, parse_date_yyyymmdd (removeSub ("daily_".data) n.data) = some dt ∧
        rataDie dt + retention_days < rataDie today) ∧
    (∀ n, parse_date_yyyymmdd (removeSub ("daily_".data) n.data) = none →
      n ∉ cleanup_old_photos dirNames today retention_days) ∧
    cleanup_old_photos ["daily_20250610", "daily_20250612", "daily_20250615",
      "daily_notadate"] ⟨2025, 6, 20⟩ 7 = ["daily_20250610", "daily_20250612"] := by
  refine ⟨fun n => cleanup_mem_iff dirNames today retention_days n, ?_, by decide⟩
  intro n hp hmem
  obtain ⟨_, _, dt, hdt, _⟩ := (cleanup_mem_iff dirNames today retention_days n).mp hmem
  rw [hp] at hdt
  exact Option.noConfusion hdt

/-- C6 witness: the concrete retention instance extracted through the
theorem, plus the never-remove guarantee for the unparseable bucket. -/
theorem cleanup_removes_exactly_stale_witness :
    cleanup_old_photos ["daily_20250610", "daily_20250612", "daily_20250615",
      "daily_notadate"] ⟨2025, 6, 20⟩ 7 = ["daily_20250610", "daily_20250612"] ∧
    "daily_notadate" ∉ cleanup_old_photos ["daily_20250610", "daily_20250612",
      "daily_20250615", "daily_notadate"] ⟨2025, 6, 20⟩ 7 :=
  ⟨(cleanup_removes_exactly_stale ["daily_20250610", "daily_20250612", "daily_20250615",
      "daily_notadate"] ⟨2025, 6, 20⟩ 7).2.2,
   (cleanup_removes_exactly_stale ["daily_20250610", "daily_20250612", "daily_20250615",
      "daily_notadate"] ⟨2025, 6, 20⟩ 7).2.1 "daily_notadate" (by decide)⟩

/-! ## C7: consolidated-artifact fallback -/

theorem create_gif_none_of_fail (photo_paths : List String) (gifName : String)
    (w : ExtWorld) (budget : ℚ)
    (h : w.convertOk = false ∨ w.gifWritten = false ∨
      ¬ ((w.gifSizeBytes : ℚ) / (1024 * 1024) ≤ budget)) :
    create_gif_from_photos photo_paths gifName w budget = none := by
  unfold create_gif_from_photos
  by_cases hemp : photo_paths = []
  · rw [if_pos hemp]
  · rw [if_neg hemp]
    by_cases hco : w.convertOk = false
    · rw [if_pos hco]
    · rw [if_neg hco]
      by_cases hgw : w.gifWritten = true
      · rw [if_pos hgw]
        rcases h with h | h | h
        · exact absurd h hco
        · rw [hgw] at h; exact Bool.noConfusion h
        · rw [if_neg h]
      · rw [if_neg hgw]

/-- C7: when the `convert` collaborator fails, or its output file is
missing, or the consolidated artifact's byte size exceeds the configured
budget (e.g. a 25 MB artifact against a 20 MB budget), the attachment
plan falls back to `Individual` over exactly the input records, unchanged
and in their given (ascending) order, and is never `Consolidated`. -/
theorem gif_fallback_individual (cfg : SendConfig) (photo_paths : List String)
    (gifName : String) (w : ExtWorld)
    (_hne : photo_paths ≠ [])
    (h : w.convertOk = false ∨ w.gifWritten = false ∨
      ¬ ((w.gifSizeBytes : ℚ) / (1024 * 1024) ≤ cfg.email_gif_max_size_mb)) :
    buildPlan cfg photo_paths gifName w = AttachmentPlan.individual photo_paths ∧
    ∀ g rep, buildPlan cfg photo_paths gifName w ≠ AttachmentPlan.consolidated g rep := by
  have heq : buildPlan cfg photo_paths gifName w = AttachmentPlan.individual photo_paths := by
    unfold buildPlan
    by_cases hcg : photo_paths ≠ [] ∧ cfg.email_create_gif = true
    · rw [if_pos hcg, create_gif_none_of_fail photo_paths gifName w
        cfg.email_gif_max_size_mb h]
    · rw [if_neg hcg]
  exact ⟨heq, fun g rep => by rw [heq]; intro hc; exact AttachmentPlan.noConfusion hc⟩

/-- C7 witness: an always-successful combiner producing a 25 MB file
(26214400 bytes) against a 20 MB budget yields the Individual plan over
both input records. -/
theorem gif_fallback_individual_witness :
    buildPlan ⟨some "s@x", some "pw", some "r@x", 3, 30, false, true, 20, false, "last"⟩
      ["a.jpg", "b.jpg"] "t.gif" ⟨true, true, 26214400, true, 0, ""⟩ =
      AttachmentPlan.individual ["a.jpg", "b.jpg"] :=
  (gif_fallback_individual _ ["a.jpg", "b.jpg"] "t.gif" _ (by decide)
    (Or.inr (Or.inr (by norm_num)))).1

/-! ## C8: empty dispatch still sends -/

/-- C8: a dispatch attempt whose candidate record set is empty still
hands the transport collaborator a message — the "no captures today"
notification body followed by the telemetry block — with zero photo
attachments (an Individual plan over no items), and leaves the sent state
unchanged; it is never silently skipped. -/
theorem empty_dispatch_still_sends (cfg : SendConfig) (dirFiles sent : List String)
    (gifName : String) (w : ExtWorld) (se sp sr : String)
    (he : cfg.sender_email = some se) (hpw : cfg.sender_password = some sp)
    (hr : cfg.recipients = some sr) (hok : w.smtpOk = true)
    (hempty : get_photos_to_send dirFiles sent cfg.email_incremental_photos = []) :
    sendAttempt cfg dirFiles sent gifName w =
      ⟨true, some ⟨noPhotosBody ++ w.sysInfo, AttachmentPlan.individual []⟩, sent⟩ := by
  simp only [sendAttempt, he, hpw, hr, hempty, hok, if_true]
  simp [emailBody, buildPlan]

/-- C8 witness: the empty-bucket dispatch evaluated on a concrete
configuration and an empty daily directory. -/
theorem empty_dispatch_still_sends_witness :
    sendAttempt ⟨some "s@x", some "pw", some "r@x", 3, 30, false, false, 20, false, "last"⟩
      [] [] "t.gif" ⟨true, true, 0, true, 0, "SYS"⟩ =
      ⟨true, some ⟨noPhotosBody ++ "SYS", AttachmentPlan.individual []⟩, []⟩ :=
  empty_dispatch_still_sends _ [] [] "t.gif" _ "s@x" "pw" "r@x" rfl rfl rfl rfl rfl

/-! ## C9: representative selection -/

theorem select_single_photo_spec (paths : List String) (m : String) (r : Nat)
    (h : paths ≠ []) :
    (∃ x, select_single_photo paths m r = some x ∧ x ∈ paths) ∧
    select_single_photo paths "first" r = paths[0]? ∧
    select_single_photo paths "last" r = paths[paths.length - 1]? ∧
    select_single_photo paths "middle" r = paths[paths.length / 2]? ∧
    (m ≠ "random" → ∀ r2, select_single_photo paths m r2 = select_single_photo paths m r) := by
  have hlen : 0 < paths.length := List.length_pos.mpr h
  have hfirst : ∀ r0, select_single_photo paths "first" r0 = paths[0]? := by
    intro r0; simp [select_single_photo, h]
    exact List.head?_eq_getElem? paths
  have hlast : ∀ r0, select_single_photo paths "last" r0 = paths[paths.length - 1]? := by
    intro r0; simp [select_single_photo, h]
    exact List.getLast?_eq_getElem? paths
  have hmid : ∀ r0, select_single_photo paths "middle" r0 = paths[paths.length / 2]? := by
    intro r0; simp [select_single_photo, h]
  have hmem : ∃ x, select_single_photo paths m r = some x ∧ x ∈ paths := by
    by_cases h1 : m = "first"
    · subst h1
      rw [hfirst r, List.getElem?_eq_getElem hlen]
      exact ⟨paths[0], rfl, List.getElem_mem hlen⟩
    · by_cases h2 : m = "last"
      · subst h2
        have hl : paths.length - 1 < paths.length := by omega
        rw [hlast r, List.getElem?_eq_getElem hl]
        exact ⟨_, rfl, List.getElem_mem hl⟩
      · by_cases h3 : m = "middle"
        · subst h3
          have hl : paths.length / 2 < paths.length := Nat.div_lt_self hlen (by omega)
          rw [hmid r, List.getElem?_eq_getElem hl]
          exact ⟨_, rfl, List.getElem_mem hl⟩
        · by_cases h4 : m = "random"
          · subst h4
            have hl : r % paths.length < paths.length := Nat.mod_lt r hlen
            simp only [select_single_photo, if_neg h,
              if_neg (by decide : ¬ ("random" : String) = "first"),
              if_neg (by decide : ¬ ("random" : String) = "last"),
              if_neg (by decide : ¬ ("random" : String) = "middle"), if_pos rfl]
            rw [List.getElem?_eq_getElem hl]
            exact ⟨_, rfl, List.getElem_mem hl⟩
          · simp only [select_single_photo, if_neg h, if_neg h1, if_neg h2, if_neg h3,
              if_neg h4]
            rw [List.getLast?_eq_getLast paths h]
            exact ⟨_, rfl, List.getLast_mem h⟩
  refine ⟨hmem, hfirst r, hlast r, hmid r, ?_⟩
  intro hm r2
  by_cases h1 : m = "first"
  · subst h1; rw [hfirst r, hfirst r2]
  · by_cases h2 : m = "last"
    · subst h2; rw [hlast r, hlast r2]
    · by_cases h3 : m = "middle"
      · subst h3; rw [hmid r, hmid r2]
      · simp only [select_single_photo, if_neg h, if_neg h1, if_neg h2, if_neg h3,
          if_neg hm]

/-- C9: representative selection is total on non-empty inputs for every
selection method string (including the default branch for unknown
methods) and always returns an element of the input: `first` yields index
0, `last` the final index, `middle` index `count / 2` (so 5 records yield
index 2), and every method except `random` is deterministic across
repeated calls with the same input. -/
theorem select_single_photo_correct (paths : List String) (m : String) (r : Nat)
    (h : paths ≠ []) :
    (∃ x, select_single_photo paths m r = some x ∧ x ∈ paths) ∧
    select_single_photo paths "first" r = paths[0]? ∧
    select_single_photo paths "last" r = paths[paths.length - 1]? ∧
    select_single_photo paths "middle" r = paths[paths.length / 2]? ∧
    (m ≠ "random" → ∀ r2, select_single_photo paths m r2 = select_single_photo paths m r) ∧
    select_single_photo ["p0", "p1", "p2", "p3", "p4"] "middle" 0 = some "p2" :=
  ⟨(select_single_photo_spec paths m r h).1,
   (select_single_photo_spec paths m r h).2.1,
   (select_single_photo_spec paths m r h).2.2.1,
   (select_single_photo_spec paths m r h).2.2.2.1,
   (select_single_photo_spec paths m r h).2.2.2.2,
   by decide⟩

/-- C9 witness: the selection facts evaluated on a concrete five-element
record list with the `middle` method. -/
theorem select_single_photo_correct_witness :
    (∃ x, select_single_photo ["p0", "p1", "p2", "p3", "p4"] "middle" 0 = some x ∧
      x ∈ ["p0", "p1", "p2", "p3", "p4"]) ∧
    select_single_photo ["p0", "p1", "p2", "p3", "p4"] "middle" 0 = some "p2" :=
  ⟨(select_single_photo_correct ["p0", "p1", "p2", "p3", "p4"] "middle" 0 (by decide)).1,
   (select_single_photo_correct ["p0", "p1", "p2", "p3", "p4"] "middle" 0 (by decide)).2.2.2.2.2⟩

/-! ## C10: candidate records are exactly the jpg files -/

theorem mem_get_today_photos (dirFiles : List String) (p : String) :
    p ∈ get_today_photos dirFiles ↔ p ∈ dirFiles ∧ globJpg p = true := by
  unfold get_today_photos
  rw [(List.perm_insertionSort strLe (dirFiles.filter globJpg)).mem_iff]
  exact List.mem_filter

theorem gif_jpg_suffix_clash (g : String)
    (hg : hasSuffixCL g.data (".gif".data) = true)
    (hj : hasSuffixCL g.data (".jpg".data) = true) : False := by
  unfold hasSuffixCL at hg hj
  have hg2 := List.isPrefixOf_iff_prefix.mp hg
  have hj2 := List.isPrefixOf_iff_prefix.mp hj
  rw [ List.prefix_iff_eq_take] at hg2 hj2
  rw [show ((".gif".data.reverse).length) = 4 from rfl] at hg2
  rw [show ((".jpg".data.reverse).length) = 4 from rfl] at hj2
  exact absurd (hg2.trans hj2.symm) (by decide)

/-- C10: for every listing of the daily bucket, the candidate record set
produced by `get_today_photos` contains only names ending in `.jpg` that
come from that bucket, in ascending (code-point) filename order; no name
ending in `.gif` is ever selected, and the consolidated timelapse
artifact's name always ends in `.gif`, so the GIF written into the bucket
is never picked up as a capture record by a later dispatch. -/
theorem today_photos_jpg_only (dirFiles : List String) :
    (∀ p ∈ get_today_photos dirFiles,
      hasSuffixCL p.data (".jpg".data) = true ∧ p ∈ dirFiles) ∧
    List.Sorted strLe (get_today_photos dirFiles) ∧
    (∀ g : String, hasSuffixCL g.data (".gif".data) = true →
      g ∉ get_today_photos dirFiles) ∧
    (∀ ymd : String, hasSuffixCL (gifFileName ymd).data (".gif".data) = true) := by
  refine ⟨?_, ?_, ?_, ?_⟩
  · intro p hp
    obtain ⟨hmem, hjpg⟩ := (mem_get_today_photos dirFiles p).mp hp
    unfold globJpg at hjpg
    exact ⟨(Bool.and_eq_true _ _ |>.mp hjpg).1, hmem⟩
  · exact List.sorted_insertionSort strLe (dirFiles.filter globJpg)
  · intro g hg hmem
    obtain ⟨_, hjpg⟩ := (mem_get_today_photos dirFiles g).mp hmem
    unfold globJpg at hjpg
    exact gif_jpg_suffix_clash g hg (Bool.and_eq_true _ _ |>.mp hjpg).1
  · intro ymd
    unfold gifFileName hasSuffixCL
    rw [String.data_append, String.data_append, List.reverse_append]
    exact List.isPrefixOf_iff_prefix.mpr (List.prefix_append _ _)

/-- C10 witness: on a concrete bucket listing containing a capture, the
sent-state file and the timelapse artifact, only the capture is selected
and the artifact (whose name ends in `.gif`) is excluded. -/
theorem today_photos_jpg_only_witness :
    "watchpot_timelapse_20250609.gif" ∉
      get_today_photos ["watchpot_20250609_0800.jpg", ".sent_photos",
        "watchpot_timelapse_20250609.gif"] :=
  (today_photos_jpg_only ["watchpot_20250609_0800.jpg", ".sent_photos",
    "watchpot_timelapse_20250609.gif"]).2.2.1 "watchpot_timelapse_20250609.gif" (by decide)

/-! ## C1: incremental dispatch idempotence -/

theorem get_today_photos_nodup (dirFiles : List String) (hd : dirFiles.Nodup) :
    (get_today_photos dirFiles).Nodup :=
  ((List.perm_insertionSort strLe (dirFiles.filter globJpg)).symm).nodup
    (hd.filter globJpg)

/-- C1: if an incremental dispatch succeeds and a second incremental
dispatch runs with no new captures in between, the second dispatch's
candidate delta against the persisted sent set is empty (zero photo
attachments), the second dispatch leaves the persisted sent set
unchanged, and that set contains no duplicate entries. -/
theorem incremental_dispatch_idempotent (cfg : SendConfig) (dirFiles sent0 : List String)
    (gifName : String) (w w2 : ExtWorld)
    (hd : dirFiles.Nodup) (hs0 : sent0.Nodup)
    (hinc : cfg.email_incremental_photos = true)
    (se sp sr : String)
    (he : cfg.sender_email = some se) (hpw : cfg.sender_password = some sp)
    (hr : cfg.recipients = some sr) (hok : w.smtpOk = true) :
    (sendAttempt cfg dirFiles sent0 gifName w).success = true ∧
    get_photos_to_send dirFiles ((sendAttempt cfg dirFiles sent0 gifName w).newSent)
      true = [] ∧
    (sendAttempt cfg dirFiles ((sendAttempt cfg dirFiles sent0 gifName w).newSent)
      gifName w2).newSent = (sendAttempt cfg dirFiles sent0 gifName w).newSent ∧
    ((sendAttempt cfg dirFiles sent0 gifName w).newSent).Nodup := by
  have hphotos : get_photos_to_send dirFiles sent0 true =
      (get_today_photos dirFiles).filter (fun p => !(decide (p ∈ sent0))) := by
    rw [get_photos_to_send]
    simp
  have hatt1 : sendAttempt cfg dirFiles sent0 gifName w =
      ⟨true,
        some ⟨emailBody ((get_today_photos dirFiles).filter
            (fun p => !(decide (p ∈ sent0)))) w.sysInfo,
          buildPlan cfg ((get_today_photos dirFiles).filter
            (fun p => !(decide (p ∈ sent0)))) gifName w⟩,
        if (get_today_photos dirFiles).filter (fun p => !(decide (p ∈ sent0))) ≠ [] then
          sent0 ++ (get_today_photos dirFiles).filter (fun p => !(decide (p ∈ sent0)))
        else sent0⟩ := by
    simp only [sendAttempt, he, hpw, hr, hok, if_true, hphotos, hinc, true_and]
  have hS1 : (sendAttempt cfg dirFiles sent0 gifName w).newSent =
      (if (get_today_photos dirFiles).filter (fun p => !(decide (p ∈ sent0))) ≠ [] then
        sent0 ++ (get_today_photos dirFiles).filter (fun p => !(decide (p ∈ sent0)))
      else sent0) := by
    rw [hatt1]
  have hsub : ∀ p ∈ get_today_photos dirFiles,
      p ∈ (sendAttempt cfg dirFiles sent0 gifName w).newSent := by
    intro p hp
    rw [hS1]
    by_cases hph : (get_today_photos dirFiles).filter (fun p => !(decide (p ∈ sent0))) = []
    · rw [if_neg (by simpa using hph)]
      have hall := List.filter_eq_nil_iff.mp hph p hp
      simpa using hall
    · rw [if_pos hph]
      by_cases hmem : p ∈ sent0
      · exact List.mem_append_left _ hmem
      · exact List.mem_append_right _
          (List.mem_filter.mpr ⟨hp, by simp [hmem]⟩)
  have hdelta : get_photos_to_send dirFiles
      ((sendAttempt cfg dirFiles sent0 gifName w).newSent) true = [] := by
    rw [get_photos_to_send]
    simp only [if_true]
    exact List.filter_eq_nil_iff.mpr (fun p hp => by simp [hsub p hp])
  refine ⟨by rw [hatt1], hdelta, ?_, ?_⟩
  · generalize hgen : (sendAttempt cfg dirFiles sent0 gifName w).newSent = S1 at hdelta ⊢
    have hphotos2 : get_photos_to_send dirFiles S1 cfg.email_incremental_photos = [] := by
      rw [hinc]; exact hdelta
    simp only [sendAttempt, he, hpw, hr, hphotos2]
    by_cases hok2 : w2.smtpOk = true
    · simp [hok2]
    · simp [hok2]
  · rw [hS1]
    by_cases hph : (get_today_photos dirFiles).filter (fun p => !(decide (p ∈ sent0))) = []
    · rw [if_neg (by simpa using hph)]
      exact hs0
    · rw [if_pos hph]
      refine List.nodup_append.mpr ⟨hs0, (get_today_photos_nodup dirFiles hd).filter _, ?_⟩
      intro a ha hafilter
      have := (List.mem_filter.mp hafilter).2
      simp at this
      exact this ha

/-- C1 witness: two consecutive incremental dispatches over a bucket with
one capture and an initially empty sent set: the first succeeds, the
delta for the second is empty, and the sent set stays duplicate-free. -/
theorem incremental_dispatch_idempotent_witness :
    (sendAttempt ⟨some "s@x", some "pw", some "r@x", 3, 30, true, false, 20, false, "last"⟩
      ["watchpot_20250609_0800.jpg"] [] "t.gif" ⟨true, true, 0, true, 0, "SYS"⟩).success
      = true ∧
    get_photos_to_send ["watchpot_20250609_0800.jpg"]
      ((sendAttempt ⟨some "s@x", some "pw", some "r@x", 3, 30, true, false, 20, false, "last"⟩
        ["watchpot_20250609_0800.jpg"] [] "t.gif" ⟨true, true, 0, true, 0, "SYS"⟩).newSent)
      true = [] ∧
    (sendAttempt ⟨some "s@x", some "pw", some "r@x", 3, 30, true, false, 20, false, "last"⟩
      ["watchpot_20250609_0800.jpg"]
      ((sendAttempt ⟨some "s@x", some "pw", some "r@x", 3, 30, true, false, 20, false, "last"⟩
        ["watchpot_20250609_0800.jpg"] [] "t.gif" ⟨true, true, 0, true, 0, "SYS"⟩).newSent)
      "t.gif" ⟨true, true, 0, true, 0, "SYS"⟩).newSent =
      (sendAttempt ⟨some "s@x", some "pw", some "r@x", 3, 30, true, false, 20, false, "last"⟩
        ["watchpot_20250609_0800.jpg"] [] "t.gif" ⟨true, true, 0, true, 0, "SYS"⟩).newSent ∧
    ((sendAttempt ⟨some "s@x", some "pw", some "r@x", 3, 30, true, false, 20, false, "last"⟩
      ["watchpot_20250609_0800.jpg"] [] "t.gif" ⟨true, true, 0, true, 0, "SYS"⟩).newSent).Nodup :=
  incremental_dispatch_idempotent
    ⟨some "s@x", some "pw", some "r@x", 3, 30, true, false, 20, false, "last"⟩
    ["watchpot_20250609_0800.jpg"] [] "t.gif"
    ⟨true, true, 0, true, 0, "SYS"⟩ ⟨true, true, 0, true, 0, "SYS"⟩
    (by decide) (by decide) rfl "s@x" "pw" "r@x" rfl rfl rfl rfl

end Watchpot
